import Mathlib

/-!
Shallow embedding of `src/arraylist.h` (simontran7/arraylist), a generic
macro-generated dynamic array in C, and proofs of the specification claims.

The C code is a family of functions generated per element type by the
`GENERATE_ARRAYLIST_*` macros; the embedding is parameterized by the element
type `α` instead.  Machine integers (`size_t`) are modelled as `Nat`, with
explicit `% 2 ^ 64` wraparound where the C code can underflow
(`arraylist_remove_last` computing `list->len - 1`).  The backing buffer is
modelled as a total function `Nat → α`: C reads of uninitialized or
out-of-range slots return the junk that happens to be there, which the
function model represents faithfully (the junk is quantified over at
creation).  `malloc`/`realloc` failure is nondeterministic in C; operations
that may allocate take an explicit `allocOk : Bool` oracle for the outcome
of the allocation they may perform.
-/

namespace ArrayListC

/-- Error enum generated by GENERATE_ARRAYLIST_ERROR_ENUM (arraylist.h:70-76).
`SUCCESS` is represented by `Except.ok` of the operation's output instead of
a fourth constructor. -/
inductive ALError where
  | emptyListError
  | indexOutOfBoundsError
  | memoryError
deriving DecidableEq, Repr

/-- Struct generated by GENERATE_ARRAYLIST_STRUCT (arraylist.h:53-58):
`len` (current number of elements), `cap` (allocated capacity), and the
buffer `data`, modelled as a total function from slot index to contents. -/
structure ArrayList (α : Type) where
  len : Nat
  cap : Nat
  data : Nat → α

/-- INITIAL_CAP (arraylist.h:31). -/
def INITIAL_CAP : Nat := 10

/-- Largest value of a 64-bit `size_t`; used to model unsigned wraparound. -/
def SIZE_MAX : Nat := 2 ^ 64 - 1

/-- The new capacity requested by arraylist_add when full (arraylist.h:300):
`(size_t)(list->cap * GROWTH_FACTOR)` with GROWTH_FACTOR = 1.5
(arraylist.h:41), i.e. the truncation of `cap * 1.5`.  For `cap < 2 ^ 52`
the double product is exact, so the truncation equals `cap * 3 / 2` in
natural-number arithmetic. -/
def growthTarget (cap : Nat) : Nat := cap * 3 / 2

/-- GENERATE_ARRAYLIST_CREATE (arraylist.h:91-103), on the path where both
allocations succeed: length 0, capacity INITIAL_CAP, and whatever junk
`malloc` left in the fresh buffer (quantified as `junk`). -/
def arraylist_create {α : Type} (junk : Nat → α) : ArrayList α :=
  { len := 0, cap := INITIAL_CAP, data := junk }

/-- GENERATE_ARRAYLIST_LEN (arraylist.h:132-135). -/
def arraylist_len {α : Type} (s : ArrayList α) : Nat := s.len

/-- GENERATE_ARRAYLIST_IS_EMPTY (arraylist.h:146-149). -/
def arraylist_is_empty {α : Type} (s : ArrayList α) : Bool := s.len == 0

/-- GENERATE_ARRAYLIST_GET (arraylist.h:167-174).  Returns the result
(error code plus `*out` on success) and the state after the call. -/
def arraylist_get {α : Type} (s : ArrayList α) (index : Nat) :
    Except ALError α × ArrayList α :=
  if s.len = 0 then (Except.error ALError.emptyListError, s)
  else if s.len ≤ index then (Except.error ALError.indexOutOfBoundsError, s)
  else (Except.ok (s.data index), s)

/-- GENERATE_ARRAYLIST_GET_FIRST (arraylist.h:218-224). -/
def arraylist_get_first {α : Type} (s : ArrayList α) :
    Except ALError α × ArrayList α :=
  if s.len = 0 then (Except.error ALError.emptyListError, s)
  else (Except.ok (s.data 0), s)

/-- GENERATE_ARRAYLIST_GET_LAST (arraylist.h:240-246).  `list->len - 1` is
only evaluated after the emptiness check, where `len ≥ 1`, so `size_t` and
`Nat` subtraction agree. -/
def arraylist_get_last {α : Type} (s : ArrayList α) :
    Except ALError α × ArrayList α :=
  if s.len = 0 then (Except.error ALError.emptyListError, s)
  else (Except.ok (s.data (s.len - 1)), s)

/-- GENERATE_ARRAYLIST_SET (arraylist.h:193-202): bounds checks as in get,
then `*out = data[index]` and `data[index] = new_element`. -/
def arraylist_set {α : Type} (s : ArrayList α) (index : Nat)
    (new_element : α) : Except ALError α × ArrayList α :=
  if s.len = 0 then (Except.error ALError.emptyListError, s)
  else if s.len ≤ index then (Except.error ALError.indexOutOfBoundsError, s)
  else (Except.ok (s.data index),
    { s with data := fun j => if j = index then new_element else s.data j })

/-- GENERATE_ARRAYLIST_RESIZE (arraylist.h:264-272): `realloc` to
`new_cap` slots.  On failure the original buffer and capacity are left
unchanged; on success the contents are preserved and `cap` becomes
`new_cap`.  `allocOk` is the outcome of the `realloc`. -/
def arraylist_resize {α : Type} (s : ArrayList α) (new_cap : Nat)
    (allocOk : Bool) : Except ALError Unit × ArrayList α :=
  if allocOk then (Except.ok (), { s with cap := new_cap })
  else (Except.error ALError.memoryError, s)

/-- The shift-insert step of GENERATE_ARRAYLIST_ADD (arraylist.h:304-307):
`memmove` of the `len - index` elements at `[index, len)` one slot up,
write `element` at `index`, increment `len`. -/
def insertShift {α : Type} (s : ArrayList α) (index : Nat) (element : α) :
    ArrayList α :=
  { s with
    len := s.len + 1,
    data := fun j =>
      if j < index then s.data j
      else if j = index then element
      else if j ≤ s.len then s.data (j - 1)
      else s.data j }

/-- GENERATE_ARRAYLIST_ADD (arraylist.h:293-309): bounds check
(`index > len` fails), resize to `growthTarget cap` when full (propagating
its error with the list unchanged), then shift-insert. -/
def arraylist_add {α : Type} (s : ArrayList α) (index : Nat) (element : α)
    (allocOk : Bool) : Except ALError Unit × ArrayList α :=
  if s.len < index then (Except.error ALError.indexOutOfBoundsError, s)
  else
    match (if s.len = s.cap
           then arraylist_resize s (growthTarget s.cap) allocOk
           else (Except.ok (), s)) with
    | (Except.error e, s1) => (Except.error e, s1)
    | (Except.ok _, s1) => (Except.ok (), insertShift s1 index element)

/-- GENERATE_ARRAYLIST_ADD_FIRST (arraylist.h:328-332). -/
def arraylist_add_first {α : Type} (s : ArrayList α) (element : α)
    (allocOk : Bool) : Except ALError Unit × ArrayList α :=
  arraylist_add s 0 element allocOk

/-- GENERATE_ARRAYLIST_ADD_LAST (arraylist.h:351-355). -/
def arraylist_add_last {α : Type} (s : ArrayList α) (element : α)
    (allocOk : Bool) : Except ALError Unit × ArrayList α :=
  arraylist_add s s.len element allocOk

/-- GENERATE_ARRAYLIST_REMOVE (arraylist.h:422-433): emptiness check, then
bounds check, then `*out = data[index]`, `memmove` of the
`len - index - 1` elements at `(index, len)` one slot down, decrement
`len`. -/
def arraylist_remove {α : Type} (s : ArrayList α) (index : Nat) :
    Except ALError α × ArrayList α :=
  if s.len = 0 then (Except.error ALError.emptyListError, s)
  else if s.len ≤ index then (Except.error ALError.indexOutOfBoundsError, s)
  else (Except.ok (s.data index),
    { s with
      len := s.len - 1,
      data := fun j =>
        if index ≤ j ∧ j < s.len - 1 then s.data (j + 1) else s.data j })

/-- GENERATE_ARRAYLIST_REMOVE_FIRST (arraylist.h:374-378). -/
def arraylist_remove_first {α : Type} (s : ArrayList α) :
    Except ALError α × ArrayList α :=
  arraylist_remove s 0

/-- GENERATE_ARRAYLIST_REMOVE_LAST (arraylist.h:397-401): calls remove at
index `list->len - 1`, computed in `size_t` arithmetic BEFORE any check, so
on an empty list the index wraps around to SIZE_MAX.  The wraparound is
modelled explicitly: `(len + SIZE_MAX) % 2 ^ 64` equals `len - 1` for
`1 ≤ len ≤ 2 ^ 64` and `SIZE_MAX` for `len = 0`. -/
def arraylist_remove_last {α : Type} (s : ArrayList α) :
    Except ALError α × ArrayList α :=
  arraylist_remove s ((s.len + SIZE_MAX) % 2 ^ 64)

/-- One call of the public mutating-or-reading interface, with the
allocation oracle for the operations that may grow the buffer.  Used to
define the reachable states of the data structure. -/
inductive Op (α : Type) where
  | get (i : Nat)
  | getFirst
  | getLast
  | set (i : Nat) (v : α)
  | add (i : Nat) (v : α) (allocOk : Bool)
  | addFirst (v : α) (allocOk : Bool)
  | addLast (v : α) (allocOk : Bool)
  | remove (i : Nat)
  | removeFirst
  | removeLast

/-- The state after one interface call (the returned error or value is
dropped; only the state evolution matters for reachability). -/
def applyOp {α : Type} (s : ArrayList α) : Op α → ArrayList α
  | Op.get i => (arraylist_get s i).2
  | Op.getFirst => (arraylist_get_first s).2
  | Op.getLast => (arraylist_get_last s).2
  | Op.set i v => (arraylist_set s i v).2
  | Op.add i v allocOk => (arraylist_add s i v allocOk).2
  | Op.addFirst v allocOk => (arraylist_add_first s v allocOk).2
  | Op.addLast v allocOk => (arraylist_add_last s v allocOk).2
  | Op.remove i => (arraylist_remove s i).2
  | Op.removeFirst => (arraylist_remove_first s).2
  | Op.removeLast => (arraylist_remove_last s).2

/-- States reachable from construction by any sequence of interface calls,
under any allocation outcomes. -/
inductive Reachable {α : Type} : ArrayList α → Prop where
  | create (junk : Nat → α) : Reachable (arraylist_create junk)
  | step {s : ArrayList α} (op : Op α) (h : Reachable s) :
      Reachable (applyOp s op)

/-- The state reached from `s` by appending the values of `vs` in order
with `arraylist_add_last`, all allocations succeeding. -/
def buildFrom {α : Type} (s : ArrayList α) (vs : List α) : ArrayList α :=
  vs.foldl (fun t v => (arraylist_add_last t v true).2) s

/-! ## Helper lemmas -/

/-- Characterization of a successful in-bounds add with the allocation
succeeding: it returns SUCCESS and produces the shifted state of the C
code (arraylist.h:304-307), with the capacity grown exactly when the list
was full. -/
theorem arraylist_add_true_spec {α : Type} (s : ArrayList α) (i : Nat)
    (v : α) (h : i ≤ s.len) :
    arraylist_add s i v true =
      (Except.ok (),
        { len := s.len + 1,
          cap := if s.len = s.cap then growthTarget s.cap else s.cap,
          data := fun j =>
            if j < i then s.data j
            else if j = i then v
            else if j ≤ s.len then s.data (j - 1)
            else s.data j }) := by
  have hni : ¬ s.len < i := Nat.not_lt.mpr h
  by_cases hc : s.len = s.cap
  · simp [arraylist_add, hni, hc, arraylist_resize, insertShift]
    omega
  · simp [arraylist_add, hni, hc, insertShift]

/-- Characterization of a successful append with the allocation
succeeding: length grows by one, slot `len` receives the element, all
other slots are unchanged. -/
theorem arraylist_add_last_true_spec {α : Type} (s : ArrayList α) (v : α) :
    (arraylist_add_last s v true).1 = Except.ok () ∧
    (arraylist_add_last s v true).2.len = s.len + 1 ∧
    ∀ j, (arraylist_add_last s v true).2.data j =
      if j = s.len then v else s.data j := by
  have hspec := arraylist_add_true_spec s s.len v (Nat.le_refl _)
  rw [arraylist_add_last, hspec]
  refine ⟨rfl, rfl, ?_⟩
  intro j
  rcases Nat.lt_trichotomy j s.len with hj | hj | hj
  · simp [hj, Nat.ne_of_lt hj]
  · simp [hj]
  · have h1 : ¬ j < s.len := Nat.not_lt.mpr (Nat.le_of_lt hj)
    have h2 : j ≠ s.len := Nat.ne_of_gt hj
    have h3 : ¬ j ≤ s.len := Nat.not_le.mpr hj
    simp [h1, h2, h3]

/-- Characterization of a successful in-bounds remove: it returns the
element at `index` and produces the left-shifted state of the C code
(arraylist.h:427-431). -/
theorem arraylist_remove_spec {α : Type} (s : ArrayList α) (i : Nat)
    (h : i < s.len) :
    arraylist_remove s i =
      (Except.ok (s.data i),
        { s with
          len := s.len - 1,
          data := fun j =>
            if i ≤ j ∧ j < s.len - 1 then s.data (j + 1)
            else s.data j }) := by
  have h0 : s.len ≠ 0 := by omega
  have h1 : ¬ s.len ≤ i := Nat.not_le.mpr h
  simp [arraylist_remove, h0, h1]

/-- Contents of a state built by appending a list of values: the slots
below the old length are unchanged and the slots at the old length and
above hold the appended values in order. -/
theorem buildFrom_spec {α : Type} (vs : List α) (s : ArrayList α) :
    (buildFrom s vs).len = s.len + vs.length ∧
    ∀ j, (buildFrom s vs).data j =
      if j < s.len then s.data j else vs.getD (j - s.len) (s.data j) := by
  induction vs generalizing s with
  | nil =>
    refine ⟨rfl, ?_⟩
    intro j
    by_cases hj : j < s.len <;> simp [buildFrom, hj]
  | cons v tl ih =>
    have hstep := arraylist_add_last_true_spec s v
    have hb : buildFrom s (v :: tl) =
        buildFrom (arraylist_add_last s v true).2 tl := rfl
    rcases ih (arraylist_add_last s v true).2 with ⟨ihlen, ihdata⟩
    constructor
    · rw [hb, ihlen, hstep.2.1]
      simp [Nat.add_assoc, Nat.add_comm 1 tl.length]
    · intro j
      rw [hb, ihdata j, hstep.2.1]
      rcases Nat.lt_trichotomy j s.len with hj | hj | hj
      · have hj1 : j < s.len + 1 := by omega
        simp [hj, hj1, hstep.2.2 j, Nat.ne_of_lt hj]
      · subst hj
        simp [hstep.2.2 s.len]
      · have hj1 : ¬ j < s.len + 1 := by omega
        have hj2 : ¬ j < s.len := by omega
        have hj3 : j ≠ s.len := by omega
        have harith : j - s.len = (j - (s.len + 1)) + 1 := by omega
        simp [hj1, hj2, hstep.2.2 j, hj3, harith]

/-- get never changes the state, on any path. -/
theorem arraylist_get_state {α : Type} (s : ArrayList α) (i : Nat) :
    (arraylist_get s i).2 = s := by
  by_cases h0 : s.len = 0
  · simp [arraylist_get, h0]
  · by_cases hi : s.len ≤ i <;> simp [arraylist_get, h0, hi]

/-- get_first never changes the state. -/
theorem arraylist_get_first_state {α : Type} (s : ArrayList α) :
    (arraylist_get_first s).2 = s := by
  by_cases h0 : s.len = 0 <;> simp [arraylist_get_first, h0]

/-- get_last never changes the state. -/
theorem arraylist_get_last_state {α : Type} (s : ArrayList α) :
    (arraylist_get_last s).2 = s := by
  by_cases h0 : s.len = 0 <;> simp [arraylist_get_last, h0]

/-- set leaves the state untouched on every error path. -/
theorem arraylist_set_error_state {α : Type} (s : ArrayList α) (i : Nat)
    (v : α) (e : ALError) (h : (arraylist_set s i v).1 = Except.error e) :
    (arraylist_set s i v).2 = s := by
  by_cases h0 : s.len = 0
  · simp [arraylist_set, h0]
  · by_cases hi : s.len ≤ i
    · simp [arraylist_set, h0, hi]
    · simp [arraylist_set, h0, hi] at h

/-- add leaves the state untouched on every error path: the bounds check
fails before any mutation, and a failed realloc inside resize leaves both
the buffer and the capacity unchanged. -/
theorem arraylist_add_error_state {α : Type} (s : ArrayList α) (i : Nat)
    (v : α) (allocOk : Bool) (e : ALError)
    (h : (arraylist_add s i v allocOk).1 = Except.error e) :
    (arraylist_add s i v allocOk).2 = s := by
  by_cases hb : s.len < i
  · simp [arraylist_add, hb]
  · by_cases hc : s.len = s.cap
    · have hb2 : ¬ s.cap < i := by omega
      cases allocOk with
      | false => simp [arraylist_add, hb, hc, hb2, arraylist_resize]
      | true => simp [arraylist_add, hb, hc, hb2, arraylist_resize] at h
    · simp [arraylist_add, hb, hc] at h

/-- remove leaves the state untouched on every error path. -/
theorem arraylist_remove_error_state {α : Type} (s : ArrayList α) (i : Nat)
    (e : ALError) (h : (arraylist_remove s i).1 = Except.error e) :
    (arraylist_remove s i).2 = s := by
  by_cases h0 : s.len = 0
  · simp [arraylist_remove, h0]
  · by_cases hi : s.len ≤ i
    · simp [arraylist_remove, h0, hi]
    · simp [arraylist_remove, h0, hi] at h

/-- set preserves the length and the capacity on every path. -/
theorem arraylist_set_len_cap {α : Type} (s : ArrayList α) (i : Nat)
    (v : α) :
    (arraylist_set s i v).2.len = s.len ∧
    (arraylist_set s i v).2.cap = s.cap := by
  by_cases h0 : s.len = 0
  · simp [arraylist_set, h0]
  · by_cases hi : s.len ≤ i <;> simp [arraylist_set, h0, hi]

/-- remove preserves the capacity on every path. -/
theorem arraylist_remove_cap {α : Type} (s : ArrayList α) (i : Nat) :
    (arraylist_remove s i).2.cap = s.cap := by
  by_cases h0 : s.len = 0
  · simp [arraylist_remove, h0]
  · by_cases hi : s.len ≤ i <;> simp [arraylist_remove, h0, hi]

/-- remove never increases the length and preserves the capacity, so it
preserves the structural invariant. -/
theorem arraylist_remove_preserves {α : Type} (s : ArrayList α) (i : Nat)
    (h1 : s.len ≤ s.cap) (h2 : 10 ≤ s.cap) :
    (arraylist_remove s i).2.len ≤ (arraylist_remove s i).2.cap ∧
    10 ≤ (arraylist_remove s i).2.cap := by
  by_cases h0 : s.len = 0
  · simp [arraylist_remove, h0]; omega
  · by_cases hi : s.len ≤ i
    · simp [arraylist_remove, h0, hi]; omega
    · simp [arraylist_remove, h0, hi]; omega

/-- add preserves the structural invariant: on success the length grows by
one, and when the list was full the capacity grew to `cap * 3 / 2 ≥ cap + 1`
(which holds because every reachable capacity is at least 10). -/
theorem arraylist_add_preserves {α : Type} (s : ArrayList α) (i : Nat)
    (v : α) (allocOk : Bool) (h1 : s.len ≤ s.cap) (h2 : 10 ≤ s.cap) :
    (arraylist_add s i v allocOk).2.len ≤
      (arraylist_add s i v allocOk).2.cap ∧
    10 ≤ (arraylist_add s i v allocOk).2.cap := by
  by_cases hb : s.len < i
  · simp [arraylist_add, hb]; omega
  · by_cases hc : s.len = s.cap
    · have hb2 : ¬ s.cap < i := by omega
      cases allocOk with
      | false =>
        simp [arraylist_add, hb, hc, hb2, arraylist_resize]; omega
      | true =>
        simp [arraylist_add, hb, hc, hb2, arraylist_resize, insertShift,
          growthTarget]
        omega
    · simp [arraylist_add, hb, hc, insertShift]; omega

/-- add never shrinks the capacity. -/
theorem arraylist_add_cap_mono {α : Type} (s : ArrayList α) (i : Nat)
    (v : α) (allocOk : Bool) :
    s.cap ≤ (arraylist_add s i v allocOk).2.cap := by
  by_cases hb : s.len < i
  · simp [arraylist_add, hb]
  · by_cases hc : s.len = s.cap
    · have hb2 : ¬ s.cap < i := by omega
      cases allocOk with
      | false => simp [arraylist_add, hb, hc, hb2, arraylist_resize]
      | true =>
        simp [arraylist_add, hb, hc, hb2, arraylist_resize, insertShift,
          growthTarget]
        omega
    · simp [arraylist_add, hb, hc, insertShift]

/-- No interface call shrinks the capacity. -/
theorem applyOp_cap_mono {α : Type} (s : ArrayList α) (op : Op α) :
    s.cap ≤ (applyOp s op).cap := by
  cases op with
  | get i => simp [applyOp, arraylist_get_state]
  | getFirst => simp [applyOp, arraylist_get_first_state]
  | getLast => simp [applyOp, arraylist_get_last_state]
  | set i v => simp [applyOp, (arraylist_set_len_cap s i v).2]
  | add i v allocOk => exact arraylist_add_cap_mono s i v allocOk
  | addFirst v allocOk => exact arraylist_add_cap_mono s 0 v allocOk
  | addLast v allocOk => exact arraylist_add_cap_mono s s.len v allocOk
  | remove i => simp [applyOp, arraylist_remove_cap]
  | removeFirst => simp [applyOp, arraylist_remove_first, arraylist_remove_cap]
  | removeLast => simp [applyOp, arraylist_remove_last, arraylist_remove_cap]

/-- Every interface call preserves the structural invariant
`len ≤ cap ∧ 10 ≤ cap`. -/
theorem applyOp_preserves {α : Type} (s : ArrayList α) (op : Op α)
    (h1 : s.len ≤ s.cap) (h2 : 10 ≤ s.cap) :
    (applyOp s op).len ≤ (applyOp s op).cap ∧ 10 ≤ (applyOp s op).cap := by
  cases op with
  | get i => rw [applyOp, arraylist_get_state]; exact ⟨h1, h2⟩
  | getFirst => rw [applyOp, arraylist_get_first_state]; exact ⟨h1, h2⟩
  | getLast => rw [applyOp, arraylist_get_last_state]; exact ⟨h1, h2⟩
  | set i v =>
    rcases arraylist_set_len_cap s i v with ⟨ha, hb⟩
    rw [applyOp, ha, hb]; exact ⟨h1, h2⟩
  | add i v allocOk => exact arraylist_add_preserves s i v allocOk h1 h2
  | addFirst v allocOk => exact arraylist_add_preserves s 0 v allocOk h1 h2
  | addLast v allocOk => exact arraylist_add_preserves s s.len v allocOk h1 h2
  | remove i => exact arraylist_remove_preserves s i h1 h2
  | removeFirst => exact arraylist_remove_preserves s 0 h1 h2
  | removeLast => exact arraylist_remove_preserves s _ h1 h2

/-! ## Claims -/

/-- C1: Append/read round-trip.  Starting from a freshly constructed empty
array (any junk in the fresh buffer), after a sequence of successful
add_last calls with values `v_0..v_{n-1}` (all allocations succeeding, under
which every add_last returns SUCCESS), `get i` succeeds and returns `v_i`
for every `i < n`. -/
theorem C1_append_read_round_trip {α : Type} (vs : List α) (junk : Nat → α)
    (i : Nat) (h : i < vs.length) :
    (arraylist_get (buildFrom (arraylist_create junk) vs) i).1 =
      Except.ok vs[i] := by
  rcases buildFrom_spec vs (arraylist_create junk) with ⟨hlen, hdata⟩
  have hlen0 : (buildFrom (arraylist_create junk) vs).len = vs.length := by
    rw [hlen]; simp [arraylist_create]
  have hne : (buildFrom (arraylist_create junk) vs).len ≠ 0 := by omega
  have hlt : ¬ (buildFrom (arraylist_create junk) vs).len ≤ i := by omega
  simp only [arraylist_get, hne, hlt, if_neg, if_false]
  rw [hdata i]
  simp only [arraylist_create, Nat.not_lt_zero, if_false, Nat.sub_zero]
  exact congrArg Except.ok (List.getD_eq_getElem vs _ h)

/-- C1 witness: appending 4, 5, 6 to a fresh array and reading index 1
yields 5. -/
theorem C1_witness :
    (arraylist_get (buildFrom (arraylist_create (fun _ => (0 : Nat)))
      [4, 5, 6]) 1).1 = Except.ok 5 :=
  C1_append_read_round_trip [4, 5, 6] (fun _ => 0) 1 (by decide)

/-- C3: calling remove_last on an empty array returns EMPTY_LIST_ERROR with
the state untouched; the index it computes, `len - 1` in `size_t`
arithmetic, underflows to SIZE_MAX, but the emptiness check inside remove
fires before any element at that index is read. -/
theorem C3_remove_last_empty {α : Type} (s : ArrayList α) (h : s.len = 0) :
    arraylist_remove_last s = (Except.error ALError.emptyListError, s) ∧
    (s.len + SIZE_MAX) % 2 ^ 64 = SIZE_MAX := by
  constructor
  · simp [arraylist_remove_last, arraylist_remove, h]
  · rw [h]; decide

/-- C3 witness: remove_last on a freshly constructed array. -/
theorem C3_witness :
    arraylist_remove_last (arraylist_create (fun _ => (0 : Nat))) =
      (Except.error ALError.emptyListError,
        arraylist_create (fun _ => (0 : Nat))) :=
  (C3_remove_last_empty (arraylist_create (fun _ => (0 : Nat))) rfl).1

/-- C4: error precedence for get, set and remove: on an empty array every
index yields EMPTY_LIST_ERROR (the emptiness check precedes the bounds
check); on a non-empty array an index `≥ len` yields
INDEX_OUT_OF_BOUNDS_ERROR; and `get 0` on a freshly constructed array
fails with EMPTY_LIST_ERROR, not INDEX_OUT_OF_BOUNDS_ERROR. -/
theorem C4_error_precedence {α : Type} (s : ArrayList α) (i : Nat) (v : α)
    (junk : Nat → α) :
    (s.len = 0 →
      (arraylist_get s i).1 = Except.error ALError.emptyListError ∧
      (arraylist_set s i v).1 = Except.error ALError.emptyListError ∧
      (arraylist_remove s i).1 = Except.error ALError.emptyListError) ∧
    (0 < s.len → s.len ≤ i →
      (arraylist_get s i).1 = Except.error ALError.indexOutOfBoundsError ∧
      (arraylist_set s i v).1 =
        Except.error ALError.indexOutOfBoundsError ∧
      (arraylist_remove s i).1 =
        Except.error ALError.indexOutOfBoundsError) ∧
    (arraylist_get (arraylist_create junk) 0).1 =
      Except.error ALError.emptyListError := by
  refine ⟨?_, ?_, rfl⟩
  · intro h
    simp [arraylist_get, arraylist_set, arraylist_remove, h]
  · intro h0 hi
    have hne : s.len ≠ 0 := by omega
    simp [arraylist_get, arraylist_set, arraylist_remove, hne, hi]

/-- C4 witness: get(0) on a fresh array is EMPTY_LIST_ERROR; remove(5) on a
two-element array is INDEX_OUT_OF_BOUNDS_ERROR. -/
theorem C4_witness :
    (arraylist_get (arraylist_create (fun _ => (0 : Nat))) 0).1 =
      Except.error ALError.emptyListError ∧
    (arraylist_remove (ArrayList.mk 2 10 (fun _ => (0 : Nat))) 5).1 =
      Except.error ALError.indexOutOfBoundsError := by
  constructor
  · exact ((C4_error_precedence (arraylist_create (fun _ => (0 : Nat))) 0 0
      (fun _ => 0)).1 rfl).1
  · exact ((C4_error_precedence (ArrayList.mk 2 10 (fun _ => (0 : Nat))) 5 0
      (fun _ => 0)).2.1 (by decide) (by decide)).2.2

/-- C5: for every in-bounds index, set succeeds, returns the value
previously stored at the index, and a subsequent get at that index returns
the new value. -/
theorem C5_set_returns_old {α : Type} (s : ArrayList α) (i : Nat) (v : α)
    (h : i < s.len) :
    (arraylist_set s i v).1 = Except.ok (s.data i) ∧
    (arraylist_get (arraylist_set s i v).2 i).1 = Except.ok v := by
  have hne : s.len ≠ 0 := by omega
  have hle : ¬ s.len ≤ i := Nat.not_le.mpr h
  constructor
  · simp [arraylist_set, hne, hle]
  · simp [arraylist_set, arraylist_get, hne, hle]

/-- C5 witness: on a one-element array holding 3, set(0, 7) returns 3 and
get(0) afterwards returns 7. -/
theorem C5_witness :
    (arraylist_set (ArrayList.mk 1 10 (fun _ => (3 : Nat))) 0 7).1 =
      Except.ok 3 ∧
    (arraylist_get
      (arraylist_set (ArrayList.mk 1 10 (fun _ => (3 : Nat))) 0 7).2 0).1 =
      Except.ok 7 :=
  C5_set_returns_old (ArrayList.mk 1 10 (fun _ => 3)) 0 7 (by decide)

/-- C2: the claim states that whenever add triggers growth the requested
capacity is strictly greater than the current capacity for every possible
capacity value, at minimum `capacity + 1` when `floor(capacity * 1.5)`
equals the current capacity.  The code has no such guard: at capacity 1
the requested capacity `(size_t)(1 * 1.5)` is 1 itself, and an add on a
full list of capacity 1 leaves the capacity stuck at 1 while the length
becomes 2 — exactly the stuck-capacity behavior the mandated guard
prevents.  (No such state is reachable with INITIAL_CAP = 10; the defect
is in the growth formula itself, as §4.4 and §9 of the spec note.) -/
theorem C2_growth_unguarded :
    growthTarget 1 = 1 ∧
    ¬ 1 < growthTarget 1 ∧
    (arraylist_add (ArrayList.mk 1 1 (fun _ => (0 : Nat))) 1 7 true).2.cap
      = 1 ∧
    (arraylist_add (ArrayList.mk 1 1 (fun _ => (0 : Nat))) 1 7 true).2.len
      = 2 :=
  ⟨rfl, by decide, rfl, rfl⟩

/-- Complementary fact: for every capacity of at least 2 — in particular
for every capacity reachable from construction, all of which are at least
INITIAL_CAP = 10 — the capacity requested on growth, `floor(cap * 1.5)`,
is strictly greater than the current capacity, so the defect above is
confined to the unreachable capacities 0 and 1. -/
theorem growthTarget_strict_of_two_le (cap : Nat) (h : 2 ≤ cap) :
    cap < growthTarget cap := by
  unfold growthTarget
  omega

/-- Concrete instance of the fact above at the initial capacity: the
requested capacity at capacity 10 is 15. -/
theorem growthTarget_strict_at_initial :
    2 ≤ INITIAL_CAP ∧ INITIAL_CAP < growthTarget INITIAL_CAP :=
  ⟨by decide, growthTarget_strict_of_two_le INITIAL_CAP (by decide)⟩

/-- C6: insert/remove inverse.  For every state and index `i ≤ len`, a
successful `add i v` (allocation succeeding) followed by `remove i`
returns `v` and restores the length and every element position below the
original length to its pre-insert value. -/
theorem C6_add_remove_inverse {α : Type} (s : ArrayList α) (i : Nat)
    (v : α) (h : i ≤ s.len) :
    (arraylist_add s i v true).1 = Except.ok () ∧
    (arraylist_remove (arraylist_add s i v true).2 i).1 = Except.ok v ∧
    (arraylist_remove (arraylist_add s i v true).2 i).2.len = s.len ∧
    ∀ j, j < s.len →
      (arraylist_remove (arraylist_add s i v true).2 i).2.data j =
        s.data j := by
  have hadd := arraylist_add_true_spec s i v h
  have hlt : i < (arraylist_add s i v true).2.len := by
    rw [hadd]; exact Nat.lt_succ_of_le h
  have hrem := arraylist_remove_spec (arraylist_add s i v true).2 i hlt
  refine ⟨by rw [hadd], ?_, ?_, ?_⟩
  · rw [hrem, hadd]
    simp
  · rw [hrem, hadd]
    simp
  · intro j hj
    rw [hrem, hadd]
    dsimp only
    by_cases hij : i ≤ j
    · have hc : i ≤ j ∧ j < s.len + 1 - 1 := ⟨hij, by omega⟩
      have h1 : ¬ j + 1 < i := by omega
      have h2 : ¬ j + 1 = i := by omega
      have h3 : j + 1 ≤ s.len := by omega
      rw [if_pos hc, if_neg h1, if_neg h2, if_pos h3, Nat.add_sub_cancel]
    · have hc : ¬ (i ≤ j ∧ j < s.len + 1 - 1) := by omega
      have hji : j < i := by omega
      rw [if_neg hc, if_pos hji]

/-- C6 witness: on a one-element array holding 3, add(0, 7) then remove(0)
returns 7 and restores slot 0 to 3 with length 1. -/
theorem C6_witness :
    (arraylist_add (ArrayList.mk 1 10 (fun _ => (3 : Nat))) 0 7 true).1 =
      Except.ok () ∧
    (arraylist_remove
      (arraylist_add (ArrayList.mk 1 10 (fun _ => (3 : Nat))) 0 7 true).2
      0).1 = Except.ok 7 ∧
    (arraylist_remove
      (arraylist_add (ArrayList.mk 1 10 (fun _ => (3 : Nat))) 0 7 true).2
      0).2.len = 1 ∧
    (arraylist_remove
      (arraylist_add (ArrayList.mk 1 10 (fun _ => (3 : Nat))) 0 7 true).2
      0).2.data 0 = 3 := by
  have hmain := C6_add_remove_inverse (ArrayList.mk 1 10 (fun _ => (3 : Nat)))
    0 7 (by decide)
  exact ⟨hmain.1, hmain.2.1, hmain.2.2.1, hmain.2.2.2 0 (by decide)⟩

/-- C7: failure atomicity.  Every operation that returns an error leaves
the length, the capacity and the whole buffer exactly as they were: the
read-only operations never change the state at all, and set, add (with
any allocation outcome, including a resize failure), remove and their
first/last variants return the state unchanged on every error. -/
theorem C7_failure_atomicity {α : Type} (s : ArrayList α) (i : Nat)
    (v : α) (allocOk : Bool) (e : ALError) :
    (arraylist_get s i).2 = s ∧
    (arraylist_get_first s).2 = s ∧
    (arraylist_get_last s).2 = s ∧
    ((arraylist_set s i v).1 = Except.error e →
      (arraylist_set s i v).2 = s) ∧
    ((arraylist_add s i v allocOk).1 = Except.error e →
      (arraylist_add s i v allocOk).2 = s) ∧
    ((arraylist_add_first s v allocOk).1 = Except.error e →
      (arraylist_add_first s v allocOk).2 = s) ∧
    ((arraylist_add_last s v allocOk).1 = Except.error e →
      (arraylist_add_last s v allocOk).2 = s) ∧
    ((arraylist_remove s i).1 = Except.error e →
      (arraylist_remove s i).2 = s) ∧
    ((arraylist_remove_first s).1 = Except.error e →
      (arraylist_remove_first s).2 = s) ∧
    ((arraylist_remove_last s).1 = Except.error e →
      (arraylist_remove_last s).2 = s) :=
  ⟨arraylist_get_state s i,
   arraylist_get_first_state s,
   arraylist_get_last_state s,
   arraylist_set_error_state s i v e,
   arraylist_add_error_state s i v allocOk e,
   arraylist_add_error_state s 0 v allocOk e,
   arraylist_add_error_state s s.len v allocOk e,
   arraylist_remove_error_state s i e,
   arraylist_remove_error_state s 0 e,
   arraylist_remove_error_state s _ e⟩

/-- C7 witness: remove on a fresh empty array (EMPTY_LIST_ERROR) and add
at an out-of-bounds index (INDEX_OUT_OF_BOUNDS_ERROR) both leave the
state identical to the fresh array. -/
theorem C7_witness :
    (arraylist_remove (arraylist_create (fun _ => (0 : Nat))) 0).2 =
      arraylist_create (fun _ => (0 : Nat)) ∧
    (arraylist_add (arraylist_create (fun _ => (0 : Nat))) 5 7 true).2 =
      arraylist_create (fun _ => (0 : Nat)) :=
  ⟨(C7_failure_atomicity (arraylist_create (fun _ => (0 : Nat))) 0 7 true
      ALError.emptyListError).2.2.2.2.2.2.2.1 rfl,
   (C7_failure_atomicity (arraylist_create (fun _ => (0 : Nat))) 5 7 true
      ALError.indexOutOfBoundsError).2.2.2.2.1 rfl⟩

/-- C8: insertion bounds boundary, with the allocation succeeding:
`add len v` succeeds and writes `v` at slot `len`; `add i v` fails with
INDEX_OUT_OF_BOUNDS_ERROR exactly when `i > len`; in particular
`add (len + 1) v` always fails with INDEX_OUT_OF_BOUNDS_ERROR. -/
theorem C8_add_bounds {α : Type} (s : ArrayList α) (i : Nat) (v : α) :
    (arraylist_add s s.len v true).1 = Except.ok () ∧
    (arraylist_add s s.len v true).2.data s.len = v ∧
    ((arraylist_add s i v true).1 =
        Except.error ALError.indexOutOfBoundsError ↔ s.len < i) ∧
    (arraylist_add s (s.len + 1) v true).1 =
      Except.error ALError.indexOutOfBoundsError := by
  have happ := arraylist_add_true_spec s s.len v (Nat.le_refl _)
  refine ⟨by rw [happ], ?_, ⟨?_, ?_⟩, ?_⟩
  · rw [happ]; simp
  · intro h
    by_cases hb : s.len < i
    · exact hb
    · exfalso
      rw [arraylist_add_true_spec s i v (Nat.not_lt.mp hb)] at h
      simp at h
  · intro hb
    simp [arraylist_add, hb]
  · simp [arraylist_add, Nat.lt_succ_self]

/-- C8 witness: on a fresh empty array, add(3, 9) fails out of bounds and
add(0, 9) (the append position) succeeds. -/
theorem C8_witness :
    (arraylist_add (arraylist_create (fun _ => (0 : Nat))) 3 9 true).1 =
      Except.error ALError.indexOutOfBoundsError ∧
    (arraylist_add (arraylist_create (fun _ => (0 : Nat))) 0 9 true).1 =
      Except.ok () := by
  have hmain := C8_add_bounds (arraylist_create (fun _ => (0 : Nat))) 3 9
  exact ⟨hmain.2.2.1.mpr (by decide), hmain.1⟩

/-- C9: state invariant.  Every state reachable from construction by any
sequence of interface calls (under any allocation outcomes) satisfies
`len ≤ cap` and `cap ≥ 10`, and from such a state no single call ever
shrinks the capacity. -/
theorem C9_reachable_invariant {α : Type} (s : ArrayList α)
    (h : Reachable s) :
    (s.len ≤ s.cap ∧ 10 ≤ s.cap) ∧
    ∀ op : Op α, s.cap ≤ (applyOp s op).cap := by
  induction h with
  | create junk =>
    exact ⟨⟨Nat.zero_le _, Nat.le_refl _⟩, fun op => applyOp_cap_mono _ op⟩
  | step op hr ih =>
    exact ⟨applyOp_preserves _ op ih.1.1 ih.1.2,
      fun op2 => applyOp_cap_mono _ op2⟩

/-- C9 witness: the freshly constructed array satisfies the invariant. -/
theorem C9_witness :
    (arraylist_create (fun _ => (0 : Nat))).len ≤
      (arraylist_create (fun _ => (0 : Nat))).cap ∧
    10 ≤ (arraylist_create (fun _ => (0 : Nat))).cap :=
  (C9_reachable_invariant (arraylist_create (fun _ => (0 : Nat)))
    (Reachable.create (fun _ => 0))).1

/-- C10: frame property of a successful set.  For every in-bounds index,
set changes only the element at that index: the length, the capacity and
every buffer slot at any other index are unchanged. -/
theorem C10_set_frame {α : Type} (s : ArrayList α) (i : Nat) (v : α)
    (h : i < s.len) :
    (arraylist_set s i v).2.len = s.len ∧
    (arraylist_set s i v).2.cap = s.cap ∧
    ∀ j, j ≠ i → (arraylist_set s i v).2.data j = s.data j := by
  have hne : s.len ≠ 0 := by omega
  have hle : ¬ s.len ≤ i := Nat.not_le.mpr h
  refine ⟨?_, ?_, ?_⟩
  · simp [arraylist_set, hne, hle]
  · simp [arraylist_set, hne, hle]
  · intro j hj
    simp [arraylist_set, hne, hle, hj]

/-- C10 witness: on a two-element array holding the identity contents,
set(0, 7) keeps length 2, capacity 10 and slot 1 equal to 1. -/
theorem C10_witness :
    (arraylist_set (ArrayList.mk 2 10 (fun j => j)) 0 7).2.len = 2 ∧
    (arraylist_set (ArrayList.mk 2 10 (fun j => j)) 0 7).2.cap = 10 ∧
    (arraylist_set (ArrayList.mk 2 10 (fun j => j)) 0 7).2.data 1 = 1 := by
  have hmain := C10_set_frame (ArrayList.mk 2 10 (fun j => j)) 0 7 (by decide)
  exact ⟨hmain.1, hmain.2.1, hmain.2.2 1 (by decide)⟩

end ArrayListC
